import Mathlib

/-!
Verification of the SOLA history analytics core (`app.py`) against its
specification.  The pandas tables are shallowly embedded: a data-frame row is
an association list from column names to cell values, a data frame is a list
of rows, a missing cell or NaN is `Value.null`, and the pandas merge
operations are embedded as list functions with the same matching semantics
(one output row per matching right-hand row, a null-filled row when no
right-hand row matches a left join).
-/

namespace Sola

/-- Cell values of a data frame: `null` models both a missing entry and NaN,
`num` models the numeric (int/float) payloads, `str` the string payloads. -/
inductive Value where
  | null : Value
  | str (s : String) : Value
  | num (q : ℚ) : Value
  | bool (b : Bool) : Value
deriving DecidableEq, Repr

/-- A data-frame row: association list from column name to cell value. -/
abbrev Row : Type := List (String × Value)

/-- Read a cell; an absent column reads as `Value.null` (pandas NaN / `row.get(col, None)`). -/
def getCol (r : Row) (c : String) : Value :=
  match r.find? (fun p => p.1 = c) with
  | some p => p.2
  | none => Value.null

/-- Column labels of a row. -/
def rowKeys (r : Row) : List String := r.map Prod.fst

/-- Overwrite the cell of an existing column (pandas `df.loc[mask, col] = val`
restricted to one row: only columns already present are written). -/
def setCol (r : Row) (c : String) (v : Value) : Row :=
  r.map (fun p => if p.1 = c then (c, v) else p)

/-- One override entry is a partial field map, a data frame is a list of rows. -/
abbrev Fields : Type := List (String × Value)

/-- The override store: `runner_id` to partial field map, in insertion order
(a Python dict). -/
abbrev Overrides : Type := List (String × Fields)

/-- Inner loop of `apply_runner_overrides_df`: `for col, val in fields.items():
if col in df.columns: df.loc[mask, col] = val`, applied to a single masked row. -/
def applyFields (cols : List String) (fields : Fields) (r : Row) : Row :=
  fields.foldl (fun acc cv => if cv.1 ∈ cols then setCol acc cv.1 cv.2 else acc) r

/-- Column labels of a data frame (all rows of a pandas frame share them). -/
def dfColumns (df : List Row) : List String :=
  match df with
  | [] => []
  | r :: _ => rowKeys r

/-- One iteration of the override loop of `apply_runner_overrides_df`:
`mask = df["runner_id"] == runner_id; if not mask.any(): continue;
for col, val ...` applied to every masked row. -/
def applyOverrideEntry (df : List Row) (e : String × Fields) : List Row :=
  if df.any (fun r => getCol r "runner_id" = Value.str e.1) then
    df.map (fun r =>
      if getCol r "runner_id" = Value.str e.1 then applyFields (dfColumns df) e.2 r else r)
  else df

/-- Embedding of `apply_runner_overrides_df` (app.py:489-524): merges override
values into the base runner frame, replacing base values where overrides
exist.  The store is a parameter (the source reads it via
`load_runner_overrides()`); the `id` → `runner_id` rename is done by the
caller `load_data` in this embedding. -/
def apply_runner_overrides_df (overrides : Overrides) (runners_df : List Row) : List Row :=
  if overrides.isEmpty then runners_df
  else overrides.foldl applyOverrideEntry runners_df

/-! ## Schedule simulator (app.py:1777-1849, planning loop in `main`) -/

/-- Planning input of one leg: leg number, distance (`none` = unset),
the pace chosen for the leg (sec/km), and `restart = some t` when the
"restart here" checkbox is set with override start time `t` (seconds of day). -/
structure LegPlan where
  leg_number : Nat
  distance_km : Option ℚ
  pace : ℚ
  restart : Option ℚ
deriving DecidableEq, Repr

/-- One computed plan row: wall-clock times in seconds of day. -/
structure PlanRow where
  leg_number : Nat
  duration : ℚ
  start : ℚ
  finish : ℚ
  is_restart : Bool
deriving DecidableEq, Repr

/-- Leg duration: `pace_input * dist_km if dist_km else 0.0` after
`dist_km = float(leg.get("distance_km") or 0.0)`. -/
def legDuration (pace : ℚ) (dist : Option ℚ) : ℚ :=
  let d := dist.getD 0
  if d = 0 then 0 else pace * d

/-- The planning loop with its two state variables `base_start_dt` (wall-clock
base, seconds of day) and `cumulative_sec`.  A restart resets both before the
leg's own timing is computed. -/
def simulateFrom (base cum : ℚ) : List LegPlan → List PlanRow
  | [] => []
  | l :: ls =>
    let base2 := match l.restart with | some r => r | none => base
    let cum2 : ℚ := match l.restart with | some _ => 0 | none => cum
    let dur := legDuration l.pace l.distance_km
    let start := base2 + cum2
    let fin := start + dur
    { leg_number := l.leg_number, duration := dur, start := start, finish := fin,
      is_restart := l.restart.isSome } :: simulateFrom base2 (cum2 + dur) ls

/-- Embedding of the schedule simulation: `base_start_dt =
datetime.combine(race_date, race_start_time); cumulative_sec = 0.0` followed
by the per-leg loop. -/
def simulate (race_start : ℚ) (legs : List LegPlan) : List PlanRow :=
  simulateFrom race_start 0 legs

/-! ## Fact join engine (`load_data`, app.py:528-607) -/

/-- Pandas left merge on a single key: every left row is kept; each matching
right row yields one output row, and a left row without a match yields one
row whose right-hand side is null (`none`). -/
def leftMerge {α β : Type} (left : List α) (right : List β)
    (kl : α → Value) (kr : β → Value) : List (α × Option β) :=
  left.flatMap (fun a =>
    let ms := right.filter (fun b => kr b = kl a)
    if ms.isEmpty then [(a, none)] else ms.map (fun b => (a, some b)))

/-- Pandas `df.rename(columns={old: new})` on a frame. -/
def renameCol (old new : String) (df : List Row) : List Row :=
  df.map (fun r => r.map (fun p => if p.1 = old then (new, p.2) else p))

/-- Column projection `races_df[["race_id", "year", "event_name", "num_teams"]]`. -/
def selectCols (cols : List String) (r : Row) : Row :=
  cols.map (fun c => (c, getCol r c))

/-- A fact-table row: the result row paired with its (optional) joined
effective-runner, leg, team and projected race rows, in join order. -/
def FactRow : Type := (((Row × Option Row) × Option Row) × Option Row) × Option Row

/-- The result component of a fact row. -/
def factResult (m : FactRow) : Row := m.1.1.1.1

/-- The joined effective-runner component of a fact row. -/
def factRunner (m : FactRow) : Option Row := m.1.1.1.2

/-- The joined leg component of a fact row. -/
def factLeg (m : FactRow) : Option Row := m.1.1.2

/-- The joined team component of a fact row. -/
def factTeam (m : FactRow) : Option Row := m.1.2

/-- The joined (projected) race component of a fact row. -/
def factRace (m : FactRow) : Option Row := m.2

/-- The merge chain of `load_data`: results LEFT JOIN runners ON runner_id
LEFT JOIN legs ON leg_id LEFT JOIN teams ON team_id LEFT JOIN
races[[race_id, year, event_name, num_teams]] ON race_id.  The column-suffix
bookkeeping (`_runner`, `_leg`, `_team`) and the final renames keep the
joined rows apart; the embedding keeps them apart as tuple components. -/
def mergedTable (races legs teams runners results : List Row) : List FactRow :=
  leftMerge
    (leftMerge
      (leftMerge
        (leftMerge results runners
          (fun r => getCol r "runner_id") (fun r => getCol r "runner_id"))
        legs (fun x => getCol x.1 "leg_id") (fun r => getCol r "leg_id"))
      teams (fun x => getCol x.1.1 "team_id") (fun r => getCol r "team_id"))
    (races.map (selectCols ["race_id", "year", "event_name", "num_teams"]))
    (fun x => getCol x.1.1.1 "race_id") (fun r => getCol r "race_id")

/-- The dictionary returned by `load_data`. -/
structure LoadedData where
  races : List Row
  legs : List Row
  teams : List Row
  runners : List Row
  results : List Row
  merged : List FactRow

/-- Embedding of `load_data` (app.py:528-607): the five frames are parameters
(the source reads them from JSON files via `load_json`, which yields an empty
frame for a missing or unparsable file), as is the override store.  Any empty
input frame aborts with `none`; otherwise the id columns are normalized, the
overrides are applied to the runners, and the fact table is built. -/
def load_data (overrides : Overrides)
    (races_df legs_df teams_df runners_df results_df : List Row) :
    Option LoadedData :=
  if races_df.isEmpty ∨ legs_df.isEmpty ∨ teams_df.isEmpty ∨ runners_df.isEmpty
      ∨ results_df.isEmpty then
    none
  else
    let races := renameCol "id" "race_id" races_df
    let legs := renameCol "id" "leg_id" legs_df
    let teams := renameCol "id" "team_id" teams_df
    let runners0 := renameCol "id" "runner_id" runners_df
    let runners := apply_runner_overrides_df overrides runners0
    some { races := races, legs := legs, teams := teams, runners := runners,
           results := results_df,
           merged := mergedTable races legs teams runners results_df }

/-! ## Override export snapshot (`build_overrides_export_df`, app.py:157-243) -/

/-- The fixed export column list `base_cols` without the `runner_id` key. -/
def exportBaseCols : List String :=
  ["first_name", "last_name", "company", "email", "mobile", "street",
   "zip_code", "city", "country", "gender", "birth_year", "default_pace_sec",
   "preferred_distance", "favorite_stage", "tshirt_size", "food_preference",
   "active", "notes"]

/-- Columns of `ov_df = pd.DataFrame.from_dict(overrides, orient="index")`
besides `runner_id`: the union of the field names of all entries, first-seen
order.  After the suffix merge, the column `F_ov` exists in a merged row
exactly when `F` is in this list (every base column exists after `reindex`). -/
def ovFieldCols (overrides : Overrides) : List String :=
  (overrides.flatMap (fun e => e.2.map Prod.fst)).dedup

/-- The export cell rule `val(col)`: prefer the override cell when the
`_ov` column exists and its cell is not NaN, else the base cell.  An entry
that lacks a field has NaN in `ov_df`, so `getCol fields c = Value.null`
covers both "absent" and "explicitly null". -/
def exportVal (ovcols : List String) (fields : Fields) (b : Row) (c : String) : Value :=
  if c ∈ ovcols ∧ getCol fields c ≠ Value.null then getCol fields c
  else getCol b c

/-- One exported row for override entry `(rid, fields)` merged with base row `b`. -/
def exportRow (ovcols : List String) (rid : String) (fields : Fields) (b : Row) : Row :=
  ("runner_id", Value.str rid) :: exportBaseCols.map (fun c => (c, exportVal ovcols fields b c))

/-- Embedding of `build_overrides_export_df` (app.py:157-243): right join of
the reindexed base frame with the override frame on `runner_id` (one output
row per matching base row; a null base side when the override references no
base runner), then the `val(col)` rule per export column. -/
def build_overrides_export_df (runners_df : List Row) (overrides : Overrides) : List Row :=
  if overrides.isEmpty then []
  else
    overrides.flatMap (fun e =>
      let ms := runners_df.filter (fun r => getCol r "runner_id" = Value.str e.1)
      let bases := if ms.isEmpty then [([] : Row)] else ms
      bases.map (fun b => exportRow (ovFieldCols overrides) e.1 e.2 b))

/-! ## Override persistence (`save_runner_overrides`, app.py:468-486)

The file system is modelled as the override document's parent directory
(present or not) and the document's content (`none` = absent).  `json.dump`
onto a file opened with `"w"` first truncates the file and then streams the
serialized text; a failure after `k` written characters leaves the file
holding the first `k` characters of the new serialization. -/

/-- File-system state around the overrides document. -/
structure FsState where
  dirExists : Bool
  file : Option String
deriving DecidableEq, Repr

/-- Serialization of one field to text (stands for its JSON rendering). -/
def serializeValue : Value → String
  | Value.null => "null"
  | Value.str s => s
  | Value.num q => toString q
  | Value.bool b => toString b

/-- Serialization of the whole mapping to text (stands for `json.dump` of the
dict; the exact rendering is irrelevant, only that it is the full document). -/
def serializeOverrides (ov : Overrides) : String :=
  String.intercalate ";" (ov.map (fun e =>
    e.1 ++ ":" ++ String.intercalate "," (e.2.map (fun f => f.1 ++ "=" ++ serializeValue f.2))))

/-- Embedding of `save_runner_overrides` (app.py:468-486): make the parent
directory (`mkdir(parents=True, exist_ok=True)`), open the overrides file
with mode `"w"` (truncate in place — there is no temporary file and no
rename), and stream the serialization.  `failAfter = none` is a completed
write; `failAfter = some k` is a write that dies after `k` characters. -/
def save_runner_overrides (_fs : FsState) (ov : Overrides) (failAfter : Option Nat) : FsState :=
  let s := serializeOverrides ov
  match failAfter with
  | none => { dirExists := true, file := some s }
  | some k => { dirExists := true, file := some (s.take k) }

/-! ## Head-to-head comparison (app.py:1234-1359, in `main`) -/

/-- The matchup join (app.py:1334-1339): inner merge of the two runners'
stage rows on `leg_id` alone — every pair of rows sharing a `leg_id`, in
pandas order (left order major, right order minor). -/
def h2hMatchups (r1_stages r2_stages : List Row) : List (Row × Row) :=
  r1_stages.flatMap (fun a =>
    (r2_stages.filter (fun b => getCol b "leg_id" = getCol a "leg_id")).map (fun b => (a, b)))

/-- Outcome of one matched stage, named by which selected runner wins. -/
inductive Outcome where
  | r1 : Outcome
  | r2 : Outcome
  | tie : Outcome
deriving DecidableEq, Repr

/-- Python `<` on two cells: numeric comparison; any comparison involving
NaN/None is false (as in pandas). -/
def valueLt (a b : Value) : Bool :=
  match a, b with
  | Value.num x, Value.num y => decide (x < y)
  | _, _ => false

/-- The winner lambda (app.py:1345-1349): `r1 if t1 < t2 else (r2 if t1 > t2
else Tie)`. -/
def winnerOf (t1 t2 : Value) : Outcome :=
  if valueLt t1 t2 then Outcome.r1
  else if valueLt t2 t1 then Outcome.r2
  else Outcome.tie

/-- Exchange of the two runner roles in an outcome. -/
def swapOutcome : Outcome → Outcome
  | Outcome.r1 => Outcome.r2
  | Outcome.r2 => Outcome.r1
  | Outcome.tie => Outcome.tie

/-- The win/loss/tie counts over the matchup rows (app.py:1351-1353). -/
def countOutcome (ms : List (Row × Row)) (o : Outcome) : Nat :=
  ms.countP (fun p =>
    winnerOf (getCol p.1 "ind_time_seconds") (getCol p.2 "ind_time_seconds") = o)

/-- Head-to-head statistics: matchup rows and the three counts. -/
structure H2HStats where
  matchups : List (Row × Row)
  r1_wins : Nat
  r2_wins : Nat
  ties : Nat

/-- Row selection `merged[merged["runner_id"] == runner_id]`. -/
def runsOf (merged : List Row) (rid : String) : List Row :=
  merged.filter (fun r => getCol r "runner_id" = Value.str rid)

/-- Embedding of the head-to-head branch (app.py:1238-1353): identical
selected runner ids are rejected (`st.warning`, nothing computed, `none`);
otherwise the two runners' fact rows are matched on `leg_id` and the
win/loss/tie counts are taken over the matchup rows. -/
def head_to_head (merged : List Row) (runner1_id runner2_id : String) : Option H2HStats :=
  if runner1_id = runner2_id then none
  else
    let ms := h2hMatchups (runsOf merged runner1_id) (runsOf merged runner2_id)
    some { matchups := ms,
           r1_wins := countOutcome ms Outcome.r1,
           r2_wins := countOutcome ms Outcome.r2,
           ties := countOutcome ms Outcome.tie }

/-- A concrete fact table: runners A and B both ran the physical stage L1
twice (in different years).  Used to evaluate the head-to-head matchup join. -/
def c2Merged : List Row :=
  [[("runner_id", Value.str "A"), ("leg_id", Value.str "L1"),
    ("year", Value.num 2020), ("ind_time_seconds", Value.num 1000)],
   [("runner_id", Value.str "A"), ("leg_id", Value.str "L1"),
    ("year", Value.num 2021), ("ind_time_seconds", Value.num 1100)],
   [("runner_id", Value.str "B"), ("leg_id", Value.str "L1"),
    ("year", Value.num 2020), ("ind_time_seconds", Value.num 1200)],
   [("runner_id", Value.str "B"), ("leg_id", Value.str "L1"),
    ("year", Value.num 2021), ("ind_time_seconds", Value.num 900)]]

/-- A concrete fact table where each runner ran each stage at most once:
runner A ran L1 and L2, runner B ran L1 only. -/
def c2MergedNodup : List Row :=
  [[("runner_id", Value.str "A"), ("leg_id", Value.str "L1"),
    ("ind_time_seconds", Value.num 1000)],
   [("runner_id", Value.str "A"), ("leg_id", Value.str "L2"),
    ("ind_time_seconds", Value.num 1500)],
   [("runner_id", Value.str "B"), ("leg_id", Value.str "L1"),
    ("ind_time_seconds", Value.num 1200)]]

/-- A concrete override entry: an explicit null for `company`, a new value
for `email`. -/
def c4Fields : Fields := [("company", Value.null), ("email", Value.str "a@b")]

/-- A concrete override store containing only runner R1's entry. -/
def c4Overrides : Overrides := [("R1", c4Fields)]

/-- A concrete base runner frame with two runners. -/
def c4Df : List Row :=
  [[("runner_id", Value.str "R1"), ("company", Value.str "Acme"), ("email", Value.null)],
   [("runner_id", Value.str "R2"), ("company", Value.str "Beta"), ("email", Value.null)]]

/-- The first row of `c4Df` (runner R1's base row). -/
def c4Row : Row :=
  [("runner_id", Value.str "R1"), ("company", Value.str "Acme"), ("email", Value.null)]

/-- A concrete override entry for the export snapshot: a null `company`
override and a non-null `first_name` override. -/
def c10Fields : Fields := [("company", Value.null), ("first_name", Value.str "Bea")]

/-- A concrete override store for the export snapshot. -/
def c10Overrides : Overrides := [("R1", c10Fields)]

/-- The base row of runner R1 for the export snapshot. -/
def c10Base : Row :=
  [("runner_id", Value.str "R1"), ("company", Value.str "Acme"),
   ("first_name", Value.str "Ann")]

/-- A concrete base runner frame for the export snapshot. -/
def c10Runners : List Row := [c10Base]

/-- Concrete races input (pre-normalization `id` column). -/
def c1Races : List Row :=
  [[("id", Value.str "RC"), ("year", Value.num 2020),
    ("event_name", Value.str "SOLA"), ("num_teams", Value.num 10)]]

/-- Concrete legs input. -/
def c1Legs : List Row :=
  [[("id", Value.str "L1"), ("race_id", Value.str "RC"),
    ("leg_number", Value.num 1), ("distance_km", Value.num 10)]]

/-- Concrete teams input. -/
def c1Teams : List Row :=
  [[("id", Value.str "T1"), ("race_id", Value.str "RC"), ("name", Value.str "Tigers")]]

/-- Concrete runners input. -/
def c1Runners : List Row :=
  [[("id", Value.str "R1"), ("company", Value.str "Acme")]]

/-- Concrete results input: one matched result and one with a dangling
runner foreign key R9. -/
def c1Results : List Row :=
  [[("runner_id", Value.str "R1"), ("leg_id", Value.str "L1"),
    ("team_id", Value.str "T1"), ("race_id", Value.str "RC"),
    ("ind_time_seconds", Value.num 1000)],
   [("runner_id", Value.str "R9"), ("leg_id", Value.str "L1"),
    ("team_id", Value.str "T1"), ("race_id", Value.str "RC"),
    ("ind_time_seconds", Value.num 1200)]]

/-! ## Theorems -/

/-! Counting helpers for the head-to-head matchup join. -/

theorem countP_eq_sum_map {α : Type} (l : List α) (p : α → Bool) :
    l.countP p = (l.map (fun x => if p x then 1 else 0)).sum := by
  induction l with
  | nil => rfl
  | cons a l ih => by_cases h : p a <;> simp [List.countP_cons, h, ih, Nat.add_comm]

theorem countP_map_comp {α β : Type} (l : List α) (f : α → β) (p : β → Bool) :
    (l.map f).countP p = l.countP (fun x => p (f x)) := by
  induction l with
  | nil => rfl
  | cons a l ih => simp [List.countP_cons, ih]

theorem sum_map_add_distrib {α : Type} (l : List α) (f g : α → ℕ) :
    (l.map (fun x => f x + g x)).sum = (l.map f).sum + (l.map g).sum := by
  induction l with
  | nil => rfl
  | cons a l ih => simp [ih]; omega

theorem sum_map_zero_fun {α : Type} (l : List α) : (l.map (fun _ => (0 : ℕ))).sum = 0 := by
  induction l <;> simp_all

theorem sum_map_comm {α β : Type} (l1 : List α) (l2 : List β) (g : α → β → ℕ) :
    (l1.map (fun a => (l2.map (fun b => g a b)).sum)).sum
      = (l2.map (fun b => (l1.map (fun a => g a b)).sum)).sum := by
  induction l1 with
  | nil => simp [sum_map_zero_fun]
  | cons a l ih => simp [ih, sum_map_add_distrib]

theorem h2hMatchups_countP (r1 r2 : List Row) (f : Row → Row → Bool) :
    (h2hMatchups r1 r2).countP (fun p => f p.1 p.2)
      = (r1.map (fun a => r2.countP (fun b =>
          decide (getCol b "leg_id" = getCol a "leg_id") && f a b))).sum := by
  induction r1 with
  | nil => rfl
  | cons a r1 ih =>
    simp only [h2hMatchups, List.flatMap_cons, List.countP_append] at ih ⊢
    rw [countP_map_comp, List.countP_filter, ih]
    simp [Bool.and_comm]

theorem sum_map_congr {α : Type} (l : List α) (f g : α → ℕ) (h : ∀ a, f a = g a) :
    (l.map f).sum = (l.map g).sum := by
  rw [funext h]

theorem h2hMatchups_count_swap (r1 r2 : List Row) (f : Row → Row → Bool) :
    (h2hMatchups r2 r1).countP (fun p => f p.1 p.2)
      = (h2hMatchups r1 r2).countP (fun p => f p.2 p.1) := by
  rw [h2hMatchups_countP r2 r1 f, h2hMatchups_countP r1 r2 (fun a b => f b a)]
  simp only [countP_eq_sum_map]
  rw [sum_map_comm]
  apply sum_map_congr
  intro y
  apply sum_map_congr
  intro z
  have hd : decide (getCol y "leg_id" = getCol z "leg_id")
      = decide (getCol z "leg_id" = getCol y "leg_id") := by
    simp [decide_eq_decide, eq_comm]
  rw [hd]

theorem swapOutcome_swapOutcome (o : Outcome) : swapOutcome (swapOutcome o) = o := by
  cases o <;> rfl

theorem winnerOf_swap (t1 t2 : Value) : winnerOf t2 t1 = swapOutcome (winnerOf t1 t2) := by
  cases t1 <;> cases t2 <;> simp [winnerOf, valueLt, swapOutcome]
  case num.num q1 q2 =>
    rcases lt_trichotomy q1 q2 with h | h | h
    · simp [h, asymm h, swapOutcome]
    · simp [h, lt_irrefl, swapOutcome]
    · simp [h, asymm h, swapOutcome]

theorem filter_key_length_le_one {α κ : Type} [DecidableEq κ] (l : List α) (f : α → κ) (k : κ)
    (h : (l.map f).Nodup) : (l.filter (fun b => f b = k)).length ≤ 1 := by
  induction l with
  | nil => simp
  | cons a l ih =>
    simp only [List.map_cons, List.nodup_cons] at h
    by_cases ha : f a = k
    · have hnil : l.filter (fun b => decide (f b = k)) = [] := by
        rw [List.filter_eq_nil_iff]
        intro b hb
        simp only [decide_eq_true_eq]
        intro hbk
        exact h.1 (by rw [ha, ← hbk]; exact List.mem_map_of_mem f hb)
      simp [List.filter_cons, ha, hnil]
    · simp only [List.filter_cons, decide_eq_true_eq, ha, if_false]
      exact ih h.2

theorem length_filter_add_length_not {α : Type} (l : List α) (p : α → Bool) :
    (l.filter p).length + (l.filter (fun x => !(p x))).length = l.length := by
  induction l with
  | nil => rfl
  | cons a l ih => by_cases h : p a <;> simp [List.filter_cons, h] <;> omega

theorem filter_key_of_ne (r2 : List Row) (kx ka : Value) (hne : kx ≠ ka) :
    (r2.filter (fun b => !(getCol b "leg_id" = ka))).filter (fun b => getCol b "leg_id" = kx)
      = r2.filter (fun b => getCol b "leg_id" = kx) := by
  induction r2 with
  | nil => rfl
  | cons b r2 ih =>
    by_cases hb : getCol b "leg_id" = kx
    · have hba : ¬ getCol b "leg_id" = ka := by rw [hb]; exact hne
      simp [List.filter_cons, hb, hba, ih, hne, Ne.symm hne]
    · by_cases hba : getCol b "leg_id" = ka <;>
        simp [List.filter_cons, hb, hba, ih, hne, Ne.symm hne]

theorem h2hMatchups_cons (a : Row) (r1 r2 : List Row) :
    h2hMatchups (a :: r1) r2
      = ((r2.filter (fun b => getCol b "leg_id" = getCol a "leg_id")).map (fun b => (a, b)))
        ++ h2hMatchups r1 r2 := by
  simp [h2hMatchups]

theorem h2hMatchups_filter_right (a : Row) (r1 r2 : List Row)
    (h : ∀ x ∈ r1, getCol x "leg_id" ≠ getCol a "leg_id") :
    h2hMatchups r1 r2
      = h2hMatchups r1 (r2.filter (fun b => !(getCol b "leg_id" = getCol a "leg_id"))) := by
  induction r1 with
  | nil => rfl
  | cons x r1 ih =>
    have hx : getCol x "leg_id" ≠ getCol a "leg_id" := h x (List.mem_cons_self x r1)
    have hr : ∀ y ∈ r1, getCol y "leg_id" ≠ getCol a "leg_id" :=
      fun y hy => h y (List.mem_cons_of_mem x hy)
    rw [h2hMatchups_cons, h2hMatchups_cons, ih hr,
      filter_key_of_ne r2 (getCol x "leg_id") (getCol a "leg_id") hx]

theorem h2hMatchups_length_le_left (r1 r2 : List Row)
    (h : (r2.map (fun b => getCol b "leg_id")).Nodup) :
    (h2hMatchups r1 r2).length ≤ r1.length := by
  induction r1 with
  | nil => simp [h2hMatchups]
  | cons a r1 ih =>
    rw [h2hMatchups_cons, List.length_append, List.length_map, List.length_cons]
    have h1 : (r2.filter (fun b => getCol b "leg_id" = getCol a "leg_id")).length ≤ 1 :=
      filter_key_length_le_one r2 (fun b => getCol b "leg_id") (getCol a "leg_id") h
    omega

theorem h2hMatchups_length_le_right (r1 r2 : List Row)
    (h : (r1.map (fun a => getCol a "leg_id")).Nodup) :
    (h2hMatchups r1 r2).length ≤ r2.length := by
  induction r1 generalizing r2 with
  | nil => simp [h2hMatchups]
  | cons a r1 ih =>
    simp only [List.map_cons, List.nodup_cons] at h
    have hr1 : ∀ x ∈ r1, getCol x "leg_id" ≠ getCol a "leg_id" := by
      intro x hx hcontra
      exact h.1 (by rw [← hcontra]; exact List.mem_map_of_mem _ hx)
    rw [h2hMatchups_cons, List.length_append, List.length_map,
      h2hMatchups_filter_right a r1 r2 hr1]
    have hbound := ih (r2.filter (fun b => !(getCol b "leg_id" = getCol a "leg_id"))) h.2
    have hsplit := length_filter_add_length_not r2
      (fun b => decide (getCol b "leg_id" = getCol a "leg_id"))
    omega

theorem h2hMatchups_mem (r1 r2 : List Row) (p : Row × Row)
    (hp : p ∈ h2hMatchups r1 r2) :
    p.1 ∈ r1 ∧ p.2 ∈ r2 ∧ getCol p.2 "leg_id" = getCol p.1 "leg_id" := by
  unfold h2hMatchups at hp
  rcases List.mem_flatMap.mp hp with ⟨a, ha, hmem⟩
  rcases List.mem_map.mp hmem with ⟨b, hb, heq⟩
  rcases List.mem_filter.mp hb with ⟨hb2, hleg⟩
  subst heq
  exact ⟨ha, hb2, of_decide_eq_true hleg⟩

theorem countP_congr_fun {α : Type} (l : List α) (p q : α → Bool) (h : ∀ a, p a = q a) :
    l.countP p = l.countP q := by
  rw [funext h]

theorem swapOutcome_eq_iff (w o : Outcome) : swapOutcome w = o ↔ w = swapOutcome o := by
  cases w <;> cases o <;> simp [swapOutcome]

/-- C8: per matched stage the winner is the runner with the strictly lower
`ind_time_seconds` and equal times tie, and the relation is symmetric:
running the comparison with the runners swapped exchanges the win and loss
counts over the matchup rows and keeps the tie count. -/
theorem C8_winner_symmetry :
    (∀ a b : ℚ, a < b → winnerOf (Value.num a) (Value.num b) = Outcome.r1) ∧
    (∀ a b : ℚ, b < a → winnerOf (Value.num a) (Value.num b) = Outcome.r2) ∧
    (∀ a : ℚ, winnerOf (Value.num a) (Value.num a) = Outcome.tie) ∧
    (∀ (r1s r2s : List Row) (o : Outcome),
      countOutcome (h2hMatchups r2s r1s) o
        = countOutcome (h2hMatchups r1s r2s) (swapOutcome o)) := by
  refine ⟨?_, ?_, ?_, ?_⟩
  · intro a b h
    simp [winnerOf, valueLt, h]
  · intro a b h
    simp [winnerOf, valueLt, h, asymm h]
  · intro a
    simp [winnerOf, valueLt, lt_irrefl]
  · intro r1s r2s o
    unfold countOutcome
    rw [h2hMatchups_count_swap r1s r2s
      (fun a b => decide (winnerOf (getCol a "ind_time_seconds")
        (getCol b "ind_time_seconds") = o))]
    apply countP_congr_fun
    intro p
    rw [winnerOf_swap (getCol p.1 "ind_time_seconds") (getCol p.2 "ind_time_seconds")]
    simp [decide_eq_decide, swapOutcome_eq_iff]

/-- Witness for C8: a strictly faster first runner wins the stage. -/
theorem C8_winner_symmetry_witness :
    (0 : ℚ) < 1 ∧ winnerOf (Value.num 0) (Value.num 1) = Outcome.r1 :=
  ⟨by norm_num, C8_winner_symmetry.1 0 1 (by norm_num)⟩

/-- C2 counterexample: the matchup join is on `leg_id` alone, so when both
distinct runners A and B ran stage L1 in two years each (two result rows per
runner), the join produces the 2 x 2 cross product: 4 matched rows, more
than min(2, 2) = 2. -/
theorem C2_counterexample :
    "A" ≠ "B" ∧
    (runsOf c2Merged "A").length = 2 ∧
    (runsOf c2Merged "B").length = 2 ∧
    (h2hMatchups (runsOf c2Merged "A") (runsOf c2Merged "B")).length = 4 ∧
    ¬ ((h2hMatchups (runsOf c2Merged "A") (runsOf c2Merged "B")).length ≤
        min (runsOf c2Merged "A").length (runsOf c2Merged "B").length) := by
  decide

/-- C2 (amended): for distinct runners whose histories each contain at most
one result row per `leg_id`, the number of matched rows is at most
min(row count of A, row count of B); and (unconditionally) a stage present
in only one runner's history never appears in the matchup set — every
matchup's `leg_id` occurs in both histories. -/
theorem C2_matchup_bound (merged : List Row) (ridA ridB : String)
    (hAB : ridA ≠ ridB)
    (hA : ((runsOf merged ridA).map (fun r => getCol r "leg_id")).Nodup)
    (hB : ((runsOf merged ridB).map (fun r => getCol r "leg_id")).Nodup) :
    ∃ stats, head_to_head merged ridA ridB = some stats ∧
      stats.matchups.length
        ≤ min (runsOf merged ridA).length (runsOf merged ridB).length ∧
      ∀ p ∈ stats.matchups,
        getCol p.1 "leg_id" ∈ (runsOf merged ridA).map (fun r => getCol r "leg_id") ∧
        getCol p.1 "leg_id" ∈ (runsOf merged ridB).map (fun r => getCol r "leg_id") := by
  refine ⟨{ matchups := h2hMatchups (runsOf merged ridA) (runsOf merged ridB),
            r1_wins := countOutcome (h2hMatchups (runsOf merged ridA) (runsOf merged ridB))
              Outcome.r1,
            r2_wins := countOutcome (h2hMatchups (runsOf merged ridA) (runsOf merged ridB))
              Outcome.r2,
            ties := countOutcome (h2hMatchups (runsOf merged ridA) (runsOf merged ridB))
              Outcome.tie },
    by simp [head_to_head, hAB], ?_, ?_⟩
  · exact Nat.le_min.mpr
      ⟨h2hMatchups_length_le_left _ _ hB, h2hMatchups_length_le_right _ _ hA⟩
  · intro p hp
    obtain ⟨h1, h2, h3⟩ := h2hMatchups_mem _ _ p hp
    exact ⟨List.mem_map_of_mem _ h1, by rw [← h3]; exact List.mem_map_of_mem _ h2⟩

/-- Witness for C2 (amended): runner A ran L1 and L2, runner B ran L1; one
matched row, at most min(2, 1) = 1, and its stage is in both histories. -/
theorem C2_matchup_bound_witness :
    "A" ≠ "B" ∧
    ((runsOf c2MergedNodup "A").map (fun r => getCol r "leg_id")).Nodup ∧
    ((runsOf c2MergedNodup "B").map (fun r => getCol r "leg_id")).Nodup ∧
    (∃ stats, head_to_head c2MergedNodup "A" "B" = some stats ∧
      stats.matchups.length
        ≤ min (runsOf c2MergedNodup "A").length (runsOf c2MergedNodup "B").length ∧
      ∀ p ∈ stats.matchups,
        getCol p.1 "leg_id" ∈ (runsOf c2MergedNodup "A").map (fun r => getCol r "leg_id") ∧
        getCol p.1 "leg_id" ∈ (runsOf c2MergedNodup "B").map (fun r => getCol r "leg_id")) :=
  ⟨by decide, by decide, by decide,
    C2_matchup_bound c2MergedNodup "A" "B" (by decide) (by decide) (by decide)⟩

/-! Lookup lemmas for the override resolver. -/

theorem rowKeys_setCol (r : Row) (c : String) (v : Value) :
    rowKeys (setCol r c v) = rowKeys r := by
  induction r with
  | nil => rfl
  | cons p r ih =>
    by_cases hp : p.1 = c <;> simp [setCol, rowKeys, hp] <;>
      simpa [setCol, rowKeys] using ih

theorem getCol_setCol_self (r : Row) (c : String) (v : Value) (h : c ∈ rowKeys r) :
    getCol (setCol r c v) c = v := by
  induction r with
  | nil => simp [rowKeys] at h
  | cons p r ih =>
    by_cases hp : p.1 = c
    · simp [setCol, getCol, hp]
    · have hc : c ∈ rowKeys r := by
        simp only [rowKeys, List.map_cons, List.mem_cons] at h
        rcases h with hx | hx
        · exact absurd hx.symm hp
        · exact hx
      simpa [setCol, getCol, List.find?, hp] using ih hc

theorem getCol_setCol_ne (r : Row) (c c2 : String) (v : Value) (h : c2 ≠ c) :
    getCol (setCol r c v) c2 = getCol r c2 := by
  induction r with
  | nil => rfl
  | cons p r ih =>
    by_cases hp : p.1 = c
    · have h1 : ¬ (c = c2) := fun hx => h hx.symm
      have h2 : ¬ (p.1 = c2) := by rw [hp]; exact h1
      simp only [setCol, getCol, List.map_cons, if_pos hp] at ih ⊢
      rw [List.find?_cons_of_neg _ (by simpa using h1), List.find?_cons_of_neg _ (by simpa using h2)]
      exact ih
    · by_cases hq : p.1 = c2
      · simp only [setCol, getCol, List.map_cons, if_neg hp]
        rw [List.find?_cons_of_pos _ (by simpa using hq), List.find?_cons_of_pos _ (by simpa using hq)]
      · simp only [setCol, getCol, List.map_cons, if_neg hp] at ih ⊢
        rw [List.find?_cons_of_neg _ (by simpa using hq), List.find?_cons_of_neg _ (by simpa using hq)]
        exact ih

theorem applyFields_cons (cols : List String) (cv : String × Value) (fields : Fields) (r : Row) :
    applyFields cols (cv :: fields) r
      = applyFields cols fields (if cv.1 ∈ cols then setCol r cv.1 cv.2 else r) := by
  simp [applyFields]

theorem rowKeys_applyFields (cols : List String) (fields : Fields) (r : Row) :
    rowKeys (applyFields cols fields r) = rowKeys r := by
  induction fields generalizing r with
  | nil => rfl
  | cons cv fields ih =>
    rw [applyFields_cons]
    by_cases h : cv.1 ∈ cols
    · rw [if_pos h, ih, rowKeys_setCol]
    · rw [if_neg h, ih]

theorem getCol_applyFields_absent (cols : List String) (fields : Fields) (r : Row) (c : String)
    (h : c ∉ fields.map Prod.fst) :
    getCol (applyFields cols fields r) c = getCol r c := by
  induction fields generalizing r with
  | nil => rfl
  | cons cv fields ih =>
    simp only [List.map_cons, List.mem_cons, not_or] at h
    rw [applyFields_cons]
    by_cases hc : cv.1 ∈ cols
    · rw [if_pos hc, ih (setCol r cv.1 cv.2) h.2, getCol_setCol_ne _ _ _ _ h.1]
    · rw [if_neg hc, ih r h.2]

theorem getCol_applyFields_present (cols : List String) (fields : Fields) (r : Row)
    (c : String) (v : Value) (hmem : (c, v) ∈ fields)
    (hnd : (fields.map Prod.fst).Nodup) (hcols : c ∈ cols) (hkey : c ∈ rowKeys r) :
    getCol (applyFields cols fields r) c = v := by
  induction fields generalizing r with
  | nil => simp at hmem
  | cons cv fields ih =>
    simp only [List.map_cons, List.nodup_cons] at hnd
    rcases List.mem_cons.mp hmem with heq | htail
    · subst heq
      rw [applyFields_cons, if_pos hcols]
      have habs : c ∉ fields.map Prod.fst := by simpa using hnd.1
      rw [getCol_applyFields_absent _ _ _ _ habs, getCol_setCol_self _ _ _ hkey]
    · have hne : c ≠ cv.1 := by
        intro hx
        exact hnd.1 (hx ▸ List.mem_map_of_mem Prod.fst htail)
      rw [applyFields_cons]
      by_cases hc : cv.1 ∈ cols
      · rw [if_pos hc]
        exact ih (setCol r cv.1 cv.2) htail hnd.2 (by rw [rowKeys_setCol]; exact hkey)
      · rw [if_neg hc]
        exact ih r htail hnd.2 hkey

/-! Lemmas about the per-entry override loop. -/

theorem applyOverrideEntry_get (df : List Row) (e : String × Fields) (i : Nat) (r : Row)
    (hget : df.get? i = some r) :
    (applyOverrideEntry df e).get? i
      = some (if getCol r "runner_id" = Value.str e.1
          then applyFields (dfColumns df) e.2 r else r) := by
  unfold applyOverrideEntry
  by_cases hmask : df.any (fun r => getCol r "runner_id" = Value.str e.1)
  · rw [if_pos hmask, List.get?_map, hget]
    rfl
  · have hr : r ∈ df := List.get?_mem hget
    have hno : ¬ (getCol r "runner_id" = Value.str e.1) := by
      intro hc
      exact hmask (List.any_eq_true.mpr ⟨r, hr, by simp [hc]⟩)
    rw [if_neg hmask, hget, if_neg hno]

theorem dfColumns_applyOverrideEntry (df : List Row) (e : String × Fields) :
    dfColumns (applyOverrideEntry df e) = dfColumns df := by
  unfold applyOverrideEntry
  by_cases hmask : df.any (fun r => getCol r "runner_id" = Value.str e.1)
  · rw [if_pos hmask]
    cases df with
    | nil => rfl
    | cons r df =>
      by_cases hc : getCol r "runner_id" = Value.str e.1 <;>
        simp [dfColumns, hc, rowKeys_applyFields]
  · rw [if_neg hmask]

theorem fold_entries_skip (ovs : Overrides) (df : List Row) (i : Nat) (r : Row)
    (hrow : df.get? i = some r)
    (h : ∀ e ∈ ovs, getCol r "runner_id" ≠ Value.str e.1) :
    (ovs.foldl applyOverrideEntry df).get? i = some r := by
  induction ovs generalizing df with
  | nil => exact hrow
  | cons e ovs ih =>
    rw [List.foldl_cons]
    refine ih (applyOverrideEntry df e) ?_ (fun e2 he2 => h e2 (List.mem_cons_of_mem e he2))
    rw [applyOverrideEntry_get df e i r hrow,
      if_neg (h e (List.mem_cons_self e ovs))]

theorem fold_entries_apply (ovs : Overrides) (df : List Row) (i : Nat) (r : Row)
    (rid : String) (fields : Fields)
    (hrow : df.get? i = some r)
    (hrid : getCol r "runner_id" = Value.str rid)
    (hmem : (rid, fields) ∈ ovs)
    (hnd : (ovs.map Prod.fst).Nodup)
    (hnorid : "runner_id" ∉ fields.map Prod.fst) :
    (ovs.foldl applyOverrideEntry df).get? i
      = some (applyFields (dfColumns df) fields r) := by
  induction ovs generalizing df with
  | nil => simp at hmem
  | cons e ovs ih =>
    simp only [List.map_cons, List.nodup_cons] at hnd
    rw [List.foldl_cons]
    rcases List.mem_cons.mp hmem with heq | htail
    · subst heq
      have hstep : (applyOverrideEntry df (rid, fields)).get? i
          = some (applyFields (dfColumns df) fields r) := by
        rw [applyOverrideEntry_get df _ i r hrow, if_pos hrid]
      refine fold_entries_skip ovs _ i _ hstep ?_
      intro e2 he2
      rw [getCol_applyFields_absent _ _ _ _ hnorid, hrid]
      intro hx
      have hre : rid = e2.1 := by simpa [Value.str.injEq] using hx
      exact hnd.1 (by rw [hre]; exact List.mem_map.mpr ⟨e2, he2, rfl⟩)
    · have hne : rid ≠ e.1 := by
        intro hx
        exact hnd.1 (hx ▸ List.mem_map_of_mem Prod.fst htail)
      have hstep : (applyOverrideEntry df e).get? i = some r := by
        rw [applyOverrideEntry_get df e i r hrow, if_neg]
        rw [hrid]
        simpa [Value.str.injEq] using hne
      rw [ih (applyOverrideEntry df e) hstep htail hnd.2,
        dfColumns_applyOverrideEntry]

/-- C4: for every base runner collection and override mapping, a runner row
matched by an override entry takes the override's value for every field of
the entry whose column exists in the frame — including an explicit null —
and keeps the base value for every column absent from the entry. -/
theorem C4_override_precedence (overrides : Overrides) (df : List Row)
    (rid : String) (fields : Fields) (i : Nat) (r : Row)
    (hmem : (rid, fields) ∈ overrides)
    (hnd : (overrides.map Prod.fst).Nodup)
    (hfnd : (fields.map Prod.fst).Nodup)
    (hnorid : "runner_id" ∉ fields.map Prod.fst)
    (hrow : df.get? i = some r)
    (hrid : getCol r "runner_id" = Value.str rid)
    (hkeys : rowKeys r = dfColumns df) :
    ∃ r2, (apply_runner_overrides_df overrides df).get? i = some r2 ∧
      (∀ c v, (c, v) ∈ fields → c ∈ dfColumns df → getCol r2 c = v) ∧
      (∀ c, c ∉ fields.map Prod.fst → getCol r2 c = getCol r c) := by
  have hne : overrides.isEmpty = false := by
    cases overrides with
    | nil => simp at hmem
    | cons e ovs => rfl
  refine ⟨applyFields (dfColumns df) fields r, ?_, ?_, ?_⟩
  · rw [apply_runner_overrides_df, hne]
    simp only [Bool.false_eq_true, if_false]
    exact fold_entries_apply overrides df i r rid fields hrow hrid hmem hnd hnorid
  · intro c v hcv hc
    exact getCol_applyFields_present _ _ _ _ _ hcv hfnd hc (hkeys ▸ hc)
  · intro c hc
    exact getCol_applyFields_absent _ _ _ _ hc

/-- Witness for C4: runner R1's override sets `company` to an explicit null
and `email` to a new value; the effective row takes both, and keeps the base
`runner_id`. -/
theorem C4_override_precedence_witness :
    ("R1", c4Fields) ∈ c4Overrides ∧
    (c4Overrides.map Prod.fst).Nodup ∧
    (c4Fields.map Prod.fst).Nodup ∧
    "runner_id" ∉ c4Fields.map Prod.fst ∧
    c4Df.get? 0 = some c4Row ∧
    getCol c4Row "runner_id" = Value.str "R1" ∧
    rowKeys c4Row = dfColumns c4Df ∧
    (∃ r2, (apply_runner_overrides_df c4Overrides c4Df).get? 0 = some r2 ∧
      (∀ c v, (c, v) ∈ c4Fields → c ∈ dfColumns c4Df → getCol r2 c = v) ∧
      (∀ c, c ∉ c4Fields.map Prod.fst → getCol r2 c = getCol c4Row c)) :=
  ⟨by decide, by decide, by decide, by decide, by decide, by decide, by decide,
    C4_override_precedence c4Overrides c4Df "R1" c4Fields 0 c4Row (by decide) (by decide)
      (by decide) (by decide) (by decide) (by decide) (by decide)⟩

/-! Lookup lemmas for the export snapshot. -/

theorem getCol_keyed_map (cols : List String) (f : String → Value) (c : String)
    (hc : c ∈ cols) : getCol (cols.map (fun x => (x, f x))) c = f c := by
  induction cols with
  | nil => simp at hc
  | cons x cols ih =>
    by_cases hx : x = c
    · subst hx
      simp [getCol, List.find?]
    · have hc2 : c ∈ cols := by
        rcases List.mem_cons.mp hc with h | h
        · exact absurd h.symm hx
        · exact h
      simp only [List.map_cons]
      rw [getCol, List.find?_cons_of_neg _ (by simpa using hx)]
      exact ih hc2

theorem getCol_exportRow_runner (ovcols : List String) (rid : String) (fields : Fields)
    (b : Row) : getCol (exportRow ovcols rid fields b) "runner_id" = Value.str rid := by
  simp [exportRow, getCol, List.find?]

theorem getCol_exportRow (ovcols : List String) (rid : String) (fields : Fields) (b : Row)
    (c : String) (hc : c ∈ exportBaseCols) :
    getCol (exportRow ovcols rid fields b) c = exportVal ovcols fields b c := by
  have hne : ¬ ("runner_id" = c) := by
    intro h
    rw [← h] at hc
    exact absurd hc (by decide)
  unfold exportRow
  rw [getCol, List.find?_cons_of_neg _ (by simpa using hne)]
  exact getCol_keyed_map exportBaseCols (exportVal ovcols fields b) c hc

theorem mem_ovFieldCols (overrides : Overrides) (rid : String) (fields : Fields) (c : String)
    (hmem : (rid, fields) ∈ overrides) (hc : c ∈ fields.map Prod.fst) :
    c ∈ ovFieldCols overrides := by
  unfold ovFieldCols
  rw [List.mem_dedup]
  exact List.mem_flatMap.mpr ⟨(rid, fields), hmem, hc⟩

theorem getCol_ne_null_mem_keys (fields : Fields) (c : String)
    (h : getCol fields c ≠ Value.null) : c ∈ fields.map Prod.fst := by
  by_contra habs
  apply h
  unfold getCol
  have hfind : fields.find? (fun p => p.1 = c) = none := by
    rw [List.find?_eq_none]
    intro p hp
    simp only [decide_eq_true_eq]
    intro hpc
    exact habs (hpc ▸ List.mem_map_of_mem Prod.fst hp)
  rw [hfind]

/-- C10: in the override export snapshot a null override value does not take
precedence — for every override entry with a matching base runner and every
export column, the exported cell is the override value exactly when it is
non-null and the base value otherwise — whereas effective-runner resolution
(`apply_runner_overrides_df`) writes a present null over the base. -/
theorem C10_export_null_fallback :
    (∀ (runners : List Row) (overrides : Overrides) (rid : String) (fields : Fields)
      (b : Row), (rid, fields) ∈ overrides → b ∈ runners →
      getCol b "runner_id" = Value.str rid →
      ∃ out ∈ build_overrides_export_df runners overrides,
        getCol out "runner_id" = Value.str rid ∧
        ∀ c ∈ exportBaseCols,
          getCol out c
            = if getCol fields c = Value.null then getCol b c else getCol fields c) ∧
    (∀ (cols : List String) (fields : Fields) (r : Row) (c : String),
      (c, Value.null) ∈ fields → (fields.map Prod.fst).Nodup → c ∈ cols →
      c ∈ rowKeys r → getCol (applyFields cols fields r) c = Value.null) := by
  constructor
  · intro runners overrides rid fields b hmem hb hbid
    have hne : overrides.isEmpty = false := by
      cases overrides with
      | nil => simp at hmem
      | cons e ovs => rfl
    have hbm : b ∈ runners.filter (fun r => getCol r "runner_id" = Value.str rid) :=
      List.mem_filter.mpr ⟨hb, by simp [hbid]⟩
    have hms : (runners.filter
        (fun r => getCol r "runner_id" = Value.str rid)).isEmpty = false := by
      rw [List.isEmpty_eq_false_iff_exists_mem]
      exact ⟨b, hbm⟩
    refine ⟨exportRow (ovFieldCols overrides) rid fields b, ?_,
      getCol_exportRow_runner _ _ _ _, ?_⟩
    · unfold build_overrides_export_df
      simp only [hne, Bool.false_eq_true, if_false]
      refine List.mem_flatMap.mpr ⟨(rid, fields), hmem, ?_⟩
      simp only [hms, Bool.false_eq_true, if_false]
      exact List.mem_map_of_mem _ hbm
    · intro c hc
      rw [getCol_exportRow _ _ _ _ _ hc]
      unfold exportVal
      by_cases hnull : getCol fields c = Value.null
      · rw [if_pos hnull, if_neg (fun hcontra => hcontra.2 hnull)]
      · rw [if_neg hnull, if_pos ⟨mem_ovFieldCols overrides rid fields c hmem
          (getCol_ne_null_mem_keys fields c hnull), hnull⟩]
  · intro cols fields r c hmem hnd hcols hkey
    exact getCol_applyFields_present cols fields r c Value.null hmem hnd hcols hkey

/-- Witness for C10: R1's override has a null `company` and a non-null
`first_name`; the exported row keeps the base company Acme and takes the
override first name Bea. -/
theorem C10_export_null_fallback_witness :
    ("R1", c10Fields) ∈ c10Overrides ∧ c10Base ∈ c10Runners ∧
    getCol c10Base "runner_id" = Value.str "R1" ∧
    (∃ out ∈ build_overrides_export_df c10Runners c10Overrides,
      getCol out "runner_id" = Value.str "R1" ∧
      ∀ c ∈ exportBaseCols,
        getCol out c
          = if getCol c10Fields c = Value.null then getCol c10Base c
            else getCol c10Fields c) :=
  ⟨by decide, by decide, by decide,
    C10_export_null_fallback.1 c10Runners c10Overrides "R1" c10Fields c10Base
      (by decide) (by decide) (by decide)⟩

/-- C7: for every input set in which at least one of the five required
collections has zero rows, `load_data` returns the "data unavailable" outcome
(`none`) and never produces a partial fact table. -/
theorem C7_empty_input_fails (overrides : Overrides)
    (races legs teams runners results : List Row)
    (h : races = [] ∨ legs = [] ∨ teams = [] ∨ runners = [] ∨ results = []) :
    load_data overrides races legs teams runners results = none := by
  rcases h with h | h | h | h | h <;> subst h <;> simp [load_data]

/-- Witness for C7: an empty races collection with the other four nonempty. -/
theorem C7_empty_input_fails_witness :
    ([] : List Sola.Row) = [] ∧
    load_data [] [] [[("leg_id", Value.str "L1")]] [[("team_id", Value.str "T1")]]
      [[("runner_id", Value.str "R1")]] [[("runner_id", Value.str "R1")]] = none :=
  ⟨rfl, C7_empty_input_fails [] [] _ _ _ _ (Or.inl rfl)⟩

/-- C9: a head-to-head request with two identical runner identifiers is
rejected as an invalid comparison and no statistics are computed. -/
theorem C9_same_runner_rejected (merged : List Row) (rid1 rid2 : String)
    (h : rid1 = rid2) : head_to_head merged rid1 rid2 = none := by
  simp [head_to_head, h]

/-- Witness for C9: comparing runner R1 with itself. -/
theorem C9_same_runner_rejected_witness :
    "R1" = "R1" ∧ head_to_head [[("runner_id", Value.str "R1")]] "R1" "R1" = none :=
  ⟨rfl, C9_same_runner_rejected _ "R1" "R1" rfl⟩

/-- C5: a leg flagged as a restart point with override start time `r` resets
the wall-clock base to `r` and the cumulative counter to 0 before its own
timing, so the restart leg's planned start is `r` itself; concretely, leg 2
(5 km at 360 s/km) flagged with restart time 10:00:00 (36000 s) starts at
10:00:00 and finishes 10:30:00 (37800 s), regardless of leg 1's finish. -/
theorem C5_restart_resets_clock :
    (∀ (base cum r : ℚ) (l : LegPlan) (ls : List LegPlan), l.restart = some r →
      simulateFrom base cum (l :: ls) =
        { leg_number := l.leg_number, duration := legDuration l.pace l.distance_km,
          start := r, finish := r + legDuration l.pace l.distance_km,
          is_restart := true } :: simulateFrom r (0 + legDuration l.pace l.distance_km) ls) ∧
    simulate 27000 [⟨1, some 10, 360, none⟩, ⟨2, some 5, 360, some 36000⟩] =
      [⟨1, 3600, 27000, 30600, false⟩, ⟨2, 1800, 36000, 37800, true⟩] := by
  constructor
  · intro base cum r l ls h
    simp [simulateFrom, h]
  · norm_num [simulate, simulateFrom, legDuration]

/-- Witness for C5: the restart leg alone, entered with a nonzero clock state. -/
theorem C5_restart_resets_clock_witness :
    (⟨2, some 5, 360, some 36000⟩ : LegPlan).restart = some 36000 ∧
    simulateFrom 27000 3600 [⟨2, some 5, 360, some 36000⟩] =
      [⟨2, 1800, 36000, 37800, true⟩] :=
  ⟨rfl, by
    rw [C5_restart_resets_clock.1 27000 3600 36000 ⟨2, some 5, 360, some 36000⟩ [] rfl]
    norm_num [simulateFrom, legDuration]⟩

/-- C6 counterexample: at the claim's own input (legs [(1, 10 km), (2, 5 km)],
pace 360 s/km, start 07:30:00 = 27000 s, no restarts) the code has leg 1
finish at 08:30:00 (30600 s) and leg 2 run 08:30:00-09:00:00, not the claimed
leg 1 finish 09:00:00 (32400 s) with leg 2 09:00:00-09:30:00: 360 s/km over
10 km is 3600 s, one hour after 07:30:00. -/
theorem C6_counterexample :
    simulate 27000 [⟨1, some 10, 360, none⟩, ⟨2, some 5, 360, none⟩] =
      [⟨1, 3600, 27000, 30600, false⟩, ⟨2, 1800, 30600, 32400, false⟩] ∧
    simulate 27000 [⟨1, some 10, 360, none⟩, ⟨2, some 5, 360, none⟩] ≠
      [⟨1, 3600, 27000, 32400, false⟩, ⟨2, 1800, 32400, 34200, false⟩] := by
  norm_num [simulate, simulateFrom, legDuration]

/-- C6 (amended): leg duration is `pace * distance` (0 when the distance is
unset or zero), planned start is the current base plus cumulative elapsed
seconds, planned finish is start plus duration, and the duration is then
added to the cumulative counter; the claim's example yields leg 1 from
07:30:00 to 08:30:00 and leg 2 from 08:30:00 to 09:00:00. -/
theorem C6_leg_timing :
    (∀ pace : ℚ, legDuration pace none = 0) ∧
    (∀ pace : ℚ, legDuration pace (some 0) = 0) ∧
    (∀ pace d : ℚ, d ≠ 0 → legDuration pace (some d) = pace * d) ∧
    (∀ (base cum : ℚ) (l : LegPlan) (ls : List LegPlan), l.restart = none →
      simulateFrom base cum (l :: ls) =
        { leg_number := l.leg_number, duration := legDuration l.pace l.distance_km,
          start := base + cum, finish := base + cum + legDuration l.pace l.distance_km,
          is_restart := false } :: simulateFrom base (cum + legDuration l.pace l.distance_km) ls) ∧
    simulate 27000 [⟨1, some 10, 360, none⟩, ⟨2, some 5, 360, none⟩] =
      [⟨1, 3600, 27000, 30600, false⟩, ⟨2, 1800, 30600, 32400, false⟩] := by
  refine ⟨fun pace => rfl, fun pace => by simp [legDuration], ?_, ?_,
    by norm_num [simulate, simulateFrom, legDuration]⟩
  · intro pace d hd
    simp [legDuration, hd]
  · intro base cum l ls h
    simp [simulateFrom, h]

/-- Witness for C6: nonzero distance evaluates to `pace * distance`. -/
theorem C6_leg_timing_witness :
    (10 : ℚ) ≠ 0 ∧ legDuration 360 (some 10) = 360 * 10 :=
  ⟨by norm_num, C6_leg_timing.2.2.1 360 10 (by norm_num)⟩

/-! Left-merge lemmas for the fact join engine. -/

theorem leftMerge_cons {α β : Type} (a : α) (l : List α) (right : List β)
    (kl : α → Value) (kr : β → Value) :
    leftMerge (a :: l) right kl kr
      = (if (right.filter (fun b => kr b = kl a)).isEmpty then [(a, (none : Option β))]
         else (right.filter (fun b => kr b = kl a)).map (fun b => (a, some b)))
        ++ leftMerge l right kl kr := by
  simp [leftMerge]

theorem leftMerge_map_fst {α β : Type} (left : List α) (right : List β)
    (kl : α → Value) (kr : β → Value) (h : (right.map kr).Nodup) :
    (leftMerge left right kl kr).map Prod.fst = left := by
  induction left with
  | nil => rfl
  | cons a l ih =>
    rw [leftMerge_cons, List.map_append, ih]
    by_cases hempty : (right.filter (fun b => kr b = kl a)).isEmpty
    · simp [hempty]
    · have hle := filter_key_length_le_one right kr (kl a) h
      have hpos : right.filter (fun b => kr b = kl a) ≠ [] := by
        intro h0
        rw [h0] at hempty
        exact hempty rfl
      have hlt := List.length_pos.mpr hpos
      have hlen1 : (right.filter (fun b => kr b = kl a)).length = 1 := by omega
      obtain ⟨b, hb⟩ := List.length_eq_one.mp hlen1
      simp [hempty, hb]

theorem leftMerge_mem_unmatched {α β : Type} (left : List α) (right : List β)
    (kl : α → Value) (kr : β → Value) (x : α × Option β)
    (hx : x ∈ leftMerge left right kl kr) (h : kl x.1 ∉ right.map kr) :
    x.2 = none := by
  unfold leftMerge at hx
  rcases List.mem_flatMap.mp hx with ⟨a, ha, hmem⟩
  by_cases hempty : (right.filter (fun b => kr b = kl a)).isEmpty
  · simp only [hempty, if_true] at hmem
    rcases List.mem_singleton.mp hmem with rfl
    rfl
  · simp only [hempty, Bool.false_eq_true, if_false] at hmem
    rcases List.mem_map.mp hmem with ⟨b, hb, rfl⟩
    rcases List.mem_filter.mp hb with ⟨hb2, hkb⟩
    exact absurd (List.mem_map.mpr ⟨b, hb2, of_decide_eq_true hkb⟩) h

/-- Key column of the projected races frame: the projection keeps `race_id`. -/
theorem racesProj_keys (races : List Row) :
    ((races.map (selectCols ["race_id", "year", "event_name", "num_teams"])).map
        (fun r => getCol r "race_id"))
      = races.map (fun r => getCol r "race_id") := by
  rw [List.map_map]
  rfl

/-- The fact table of `mergedTable`: its result components are exactly the
results (in order), and a row whose result has a foreign key matching no
right-hand row carries `none` for that joined component. -/
theorem mergedTable_spec (races legs teams runners results : List Row)
    (hrun : (runners.map (fun r => getCol r "runner_id")).Nodup)
    (hleg : (legs.map (fun r => getCol r "leg_id")).Nodup)
    (hteam : (teams.map (fun r => getCol r "team_id")).Nodup)
    (hrace : (races.map (fun r => getCol r "race_id")).Nodup) :
    (mergedTable races legs teams runners results).map factResult = results ∧
    (∀ m ∈ mergedTable races legs teams runners results,
      (getCol (factResult m) "runner_id" ∉ runners.map (fun r => getCol r "runner_id") →
        factRunner m = none) ∧
      (getCol (factResult m) "leg_id" ∉ legs.map (fun r => getCol r "leg_id") →
        factLeg m = none) ∧
      (getCol (factResult m) "team_id" ∉ teams.map (fun r => getCol r "team_id") →
        factTeam m = none) ∧
      (getCol (factResult m) "race_id" ∉ races.map (fun r => getCol r "race_id") →
        factRace m = none)) := by
  have hrp : ((races.map (selectCols ["race_id", "year", "event_name", "num_teams"])).map
      (fun r => getCol r "race_id")).Nodup := by
    rw [racesProj_keys]
    exact hrace
  have h1 := leftMerge_map_fst results runners
    (fun r => getCol r "runner_id") (fun r => getCol r "runner_id") hrun
  have h2 := leftMerge_map_fst
    (leftMerge results runners (fun r => getCol r "runner_id") (fun r => getCol r "runner_id"))
    legs (fun x => getCol x.1 "leg_id") (fun r => getCol r "leg_id") hleg
  have h3 := leftMerge_map_fst
    (leftMerge
      (leftMerge results runners (fun r => getCol r "runner_id") (fun r => getCol r "runner_id"))
      legs (fun x => getCol x.1 "leg_id") (fun r => getCol r "leg_id"))
    teams (fun x => getCol x.1.1 "team_id") (fun r => getCol r "team_id") hteam
  have h4 := leftMerge_map_fst
    (leftMerge
      (leftMerge
        (leftMerge results runners
          (fun r => getCol r "runner_id") (fun r => getCol r "runner_id"))
        legs (fun x => getCol x.1 "leg_id") (fun r => getCol r "leg_id"))
      teams (fun x => getCol x.1.1 "team_id") (fun r => getCol r "team_id"))
    (races.map (selectCols ["race_id", "year", "event_name", "num_teams"]))
    (fun x => getCol x.1.1.1 "race_id") (fun r => getCol r "race_id") hrp
  constructor
  · show (mergedTable races legs teams runners results).map factResult = results
    unfold mergedTable
    have e1 : (leftMerge
        (leftMerge
          (leftMerge
            (leftMerge results runners
              (fun r => getCol r "runner_id") (fun r => getCol r "runner_id"))
            legs (fun x => getCol x.1 "leg_id") (fun r => getCol r "leg_id"))
          teams (fun x => getCol x.1.1 "team_id") (fun r => getCol r "team_id"))
        (races.map (selectCols ["race_id", "year", "event_name", "num_teams"]))
        (fun x => getCol x.1.1.1 "race_id") (fun r => getCol r "race_id")).map factResult
        = ((((leftMerge
            (leftMerge
              (leftMerge
                (leftMerge results runners
                  (fun r => getCol r "runner_id") (fun r => getCol r "runner_id"))
                legs (fun x => getCol x.1 "leg_id") (fun r => getCol r "leg_id"))
              teams (fun x => getCol x.1.1 "team_id") (fun r => getCol r "team_id"))
            (races.map (selectCols ["race_id", "year", "event_name", "num_teams"]))
            (fun x => getCol x.1.1.1 "race_id") (fun r => getCol r "race_id")).map
              Prod.fst).map Prod.fst).map Prod.fst).map Prod.fst := by
      simp only [List.map_map]
      rfl
    rw [e1, h4, h3, h2, h1]
  · intro m hm
    have hm3 : m.1 ∈ leftMerge
        (leftMerge
          (leftMerge results runners
            (fun r => getCol r "runner_id") (fun r => getCol r "runner_id"))
          legs (fun x => getCol x.1 "leg_id") (fun r => getCol r "leg_id"))
        teams (fun x => getCol x.1.1 "team_id") (fun r => getCol r "team_id") := by
      rw [← h4]
      exact List.mem_map_of_mem Prod.fst hm
    have hm2 : m.1.1 ∈ leftMerge
        (leftMerge results runners
          (fun r => getCol r "runner_id") (fun r => getCol r "runner_id"))
        legs (fun x => getCol x.1 "leg_id") (fun r => getCol r "leg_id") := by
      rw [← h3]
      exact List.mem_map_of_mem Prod.fst hm3
    have hm1 : m.1.1.1 ∈ leftMerge results runners
        (fun r => getCol r "runner_id") (fun r => getCol r "runner_id") := by
      rw [← h2]
      exact List.mem_map_of_mem Prod.fst hm2
    refine ⟨?_, ?_, ?_, ?_⟩
    · intro hnot
      exact leftMerge_mem_unmatched results runners _ _ m.1.1.1 hm1 hnot
    · intro hnot
      exact leftMerge_mem_unmatched _ legs _ _ m.1.1 hm2 hnot
    · intro hnot
      exact leftMerge_mem_unmatched _ teams _ _ m.1 hm3 hnot
    · intro hnot
      rw [← racesProj_keys races] at hnot
      exact leftMerge_mem_unmatched _
        (races.map (selectCols ["race_id", "year", "event_name", "num_teams"])) _ _ m hm hnot

/-- C1: when no right-hand table of `load_data` has duplicate primary keys,
the fact table's result components are exactly the results collection (one
row per result, in order, hence equal row counts), and a result whose
foreign key matches no right-hand row still appears, with `none` for the
unmatched joined side. -/
theorem C1_fact_table (overrides : Overrides)
    (races legs teams runners results : List Row) (d : LoadedData)
    (hld : load_data overrides races legs teams runners results = some d)
    (hrun : (d.runners.map (fun r => getCol r "runner_id")).Nodup)
    (hleg : (d.legs.map (fun r => getCol r "leg_id")).Nodup)
    (hteam : (d.teams.map (fun r => getCol r "team_id")).Nodup)
    (hrace : (d.races.map (fun r => getCol r "race_id")).Nodup) :
    d.merged.map factResult = d.results ∧
    d.merged.length = d.results.length ∧
    (∀ m ∈ d.merged,
      (getCol (factResult m) "runner_id" ∉ d.runners.map (fun r => getCol r "runner_id") →
        factRunner m = none) ∧
      (getCol (factResult m) "leg_id" ∉ d.legs.map (fun r => getCol r "leg_id") →
        factLeg m = none) ∧
      (getCol (factResult m) "team_id" ∉ d.teams.map (fun r => getCol r "team_id") →
        factTeam m = none) ∧
      (getCol (factResult m) "race_id" ∉ d.races.map (fun r => getCol r "race_id") →
        factRace m = none)) := by
  unfold load_data at hld
  by_cases hc : races.isEmpty ∨ legs.isEmpty ∨ teams.isEmpty ∨ runners.isEmpty
      ∨ results.isEmpty
  · rw [if_pos hc] at hld
    exact absurd hld (by simp)
  · rw [if_neg hc] at hld
    simp only [Option.some.injEq] at hld
    subst hld
    have hs := mergedTable_spec (renameCol "id" "race_id" races)
      (renameCol "id" "leg_id" legs) (renameCol "id" "team_id" teams)
      (apply_runner_overrides_df overrides (renameCol "id" "runner_id" runners))
      results hrun hleg hteam hrace
    have hlen := congrArg List.length hs.1
    rw [List.length_map] at hlen
    exact ⟨hs.1, hlen, hs.2⟩

/-- Witness for C1: one runner, leg, team, race and two results, the second
with a dangling runner key R9; the fact table has exactly the two results
and the dangling row carries a null runner side. -/
theorem C1_fact_table_witness :
    ∃ d, load_data [] c1Races c1Legs c1Teams c1Runners c1Results = some d ∧
      (d.runners.map (fun r => getCol r "runner_id")).Nodup ∧
      (d.legs.map (fun r => getCol r "leg_id")).Nodup ∧
      (d.teams.map (fun r => getCol r "team_id")).Nodup ∧
      (d.races.map (fun r => getCol r "race_id")).Nodup ∧
      (d.merged.map factResult = d.results ∧
       d.merged.length = d.results.length ∧
       (∀ m ∈ d.merged,
        (getCol (factResult m) "runner_id" ∉ d.runners.map (fun r => getCol r "runner_id") →
          factRunner m = none) ∧
        (getCol (factResult m) "leg_id" ∉ d.legs.map (fun r => getCol r "leg_id") →
          factLeg m = none) ∧
        (getCol (factResult m) "team_id" ∉ d.teams.map (fun r => getCol r "team_id") →
          factTeam m = none) ∧
        (getCol (factResult m) "race_id" ∉ d.races.map (fun r => getCol r "race_id") →
          factRace m = none))) := by
  refine ⟨_, rfl, by decide, by decide, by decide, by decide, ?_⟩
  exact C1_fact_table [] c1Races c1Legs c1Teams c1Runners c1Results _ rfl
    (by decide) (by decide) (by decide) (by decide)

/-- C3 counterexample: `save_runner_overrides` opens the overrides file with
mode `"w"` and writes in place — no temporary file, no rename.  Starting from
a valid persisted document, a write that dies after 3 characters leaves the
file holding a prefix of the new serialization; the previous valid document
is gone. -/
theorem C3_counterexample :
    (save_runner_overrides ⟨true, some "R1:active=false"⟩
        [("R1", [("active", Value.bool true)])] (some 3)).file ≠
      some "R1:active=false" ∧
    (save_runner_overrides ⟨true, some "R1:active=false"⟩
        [("R1", [("active", Value.bool true)])] (some 3)).file = some "R1:" := by
  decide

/-- C3 (amended): saving the override store creates the parent directory as
needed and overwrites the document in place; a completed write leaves exactly
the serialized mapping, but a write failing after `k` characters leaves only
the first `k` characters of the new serialization — the write is not atomic
and the previous document is not preserved. -/
theorem C3_save_overwrites_in_place :
    (∀ (fs : FsState) (ov : Overrides),
      (save_runner_overrides fs ov none).dirExists = true ∧
      (save_runner_overrides fs ov none).file = some (serializeOverrides ov)) ∧
    (∀ (fs : FsState) (ov : Overrides) (k : Nat),
      (save_runner_overrides fs ov (some k)).dirExists = true ∧
      (save_runner_overrides fs ov (some k)).file = some ((serializeOverrides ov).take k)) :=
  ⟨fun _ _ => ⟨rfl, rfl⟩, fun _ _ _ => ⟨rfl, rfl⟩⟩

end Sola
